import Mathlib

/-
  Verification of crates/hyperdrive-math/src/long.rs: the long-side pricing
  functions and the solvency-constrained max-long solver of the Hyperdrive
  pool.

  The unsigned 18-decimal fixed-point type is embedded as Nat (wei values,
  scale 10^18).  Multiplication and division follow the floor semantics of
  the fixed-point crate; subtraction and division are fallible, because the
  Rust operations abort on underflow and on a zero divisor.  The two
  explicit panics of get_max_long are modelled as distinct error values.

  The YieldSpace bonding-curve primitive (get_out_for_in, get_max_buy,
  get_spot_price, k, effective_share_reserves) and the fixed-point pow
  routine are external collaborators: the spec declares them out of scope
  ("consumed as a given interface, not re-derived here") and their code is
  not part of the source under verification.  They are carried as
  components of the snapshot, so every theorem quantifies over them.
-/

/-
  Unsigned 18-decimal fixed point values are embedded as plain ℕ, measured
  in wei (the scaled integer representation of the Rust FixedPoint type).
-/

/-- The fixed point unit 10^18, the value of fixed!(1e18). -/
def ONE : ℕ := 10 ^ 18

/-- Abnormal termination of the embedded computations: unsigned underflow,
division by zero, or one of the explicit panics of get_max_long. -/
inductive MathError where
  | underflow : MathError
  | divByZero : MathError
  | panicked : String → MathError
deriving DecidableEq, Repr

/-- Fixed point subtraction.  The Rust subtraction of the unsigned integer
type aborts when the result would be negative. -/
def fpSub (a b : ℕ) : Except MathError ℕ :=
  if b ≤ a then .ok (a - b) else .error .underflow

/-- Fixed point multiplication a * b / 1e18, rounding down. -/
def fpMul (a b : ℕ) : ℕ := a * b / ONE

/-- Fixed point division a * 1e18 / b, rounding down; aborts on b = 0. -/
def fpDiv (a b : ℕ) : Except MathError ℕ :=
  if b = 0 then .error .divByZero else .ok (a * ONE / b)

/-- Fixed point division a * 1e18 / b, rounding up; aborts on b = 0. -/
def fpDivUp (a b : ℕ) : Except MathError ℕ :=
  if b = 0 then .error .divByZero else .ok ((a * ONE + b - 1) / b)

/-- mul_div_down: a * b / c on the raw integers, rounding down. -/
def mulDivDown (a b c : ℕ) : Except MathError ℕ :=
  if c = 0 then .error .divByZero else .ok (a * b / c)

/-- FixedPoint::from(-checkpoint_exposure.min(int256!(0))): the negated
negative part of the signed checkpoint exposure. -/
def negExposurePart (ce : ℤ) : ℕ := (-(min ce 0)).toNat

/-- A pool-state snapshot.  The scalar fields are the configuration and
pool-info quantities read by long.rs; the function fields are the external
collaborators (the YieldSpace primitive and the fixed point pow routine),
assumed given, exactly as the spec treats them. -/
structure State where
  share_reserves : ℕ
  bond_reserves : ℕ
  longs_outstanding : ℕ
  long_exposure : ℕ
  share_price : ℕ
  initial_share_price : ℕ
  minimum_share_reserves : ℕ
  time_stretch : ℕ
  curve_fee : ℕ
  governance_fee : ℕ
  /-- External YieldSpace trade function: bonds out for shares in
  (get_out_for_in with an Asset::Shares argument). -/
  get_out_for_in : ℕ → ℕ
  /-- External YieldSpace max-buy boundary: the (share amount, bond amount)
  pair of the trade that drives the spot price to one. -/
  get_max_buy : ℕ × ℕ
  /-- External YieldSpace spot price of the snapshot. -/
  get_spot_price : ℕ
  /-- External YieldSpace invariant constant of the snapshot. -/
  k : ℕ
  /-- Effective share reserves (share reserves minus the share adjustment),
  computed outside the source under verification. -/
  effective_share_reserves : ℕ
  /-- External fixed point pow routine (FixedPoint::pow). -/
  pow : ℕ → ℕ → ℕ

/-- long.rs get_solvency: share_reserves - long_exposure / share_price -
minimum_share_reserves.  Each subtraction aborts on underflow. -/
def State.get_solvency (s : State) : Except MathError ℕ := do
  let a ← fpDiv s.long_exposure s.share_price
  let b ← fpSub s.share_reserves a
  fpSub b s.minimum_share_reserves

/-- long.rs long_curve_fee: curve_fee * (1e18 / spot_price - 1e18) *
base_amount. -/
def State.long_curve_fee (s : State) (base_amount : ℕ) : Except MathError ℕ := do
  let inv ← fpDiv ONE s.get_spot_price
  let q ← fpSub inv ONE
  .ok (fpMul (fpMul s.curve_fee q) base_amount)

/-- long.rs long_governance_fee: governance_fee * spot_price *
long_curve_fee(base_amount). -/
def State.long_governance_fee (s : State) (base_amount : ℕ) : Except MathError ℕ := do
  let fee ← s.long_curve_fee base_amount
  .ok (fpMul (fpMul s.governance_fee s.get_spot_price) fee)

/-- long.rs get_long_amount: the bonds received for a base payment, the
external trade output minus the curve fee. -/
def State.get_long_amount (s : State) (base_amount : ℕ) : Except MathError ℕ := do
  let shares ← fpDiv base_amount s.share_price
  let long_amount := s.get_out_for_in shares
  let fee ← s.long_curve_fee base_amount
  fpSub long_amount fee

/-- long.rs solvency_after_long: the pool solvency after opening a long of
base_amount for bond_amount bonds, netting the negative part of the
checkpoint exposure; none when the pool would be insolvent. -/
def State.solvency_after_long (s : State) (base_amount bond_amount : ℕ)
    (checkpoint_exposure : ℤ) : Except MathError (Option ℕ) := do
  let governance_fee ← s.long_governance_fee base_amount
  let xs ← fpDiv base_amount s.share_price
  let gs ← fpDiv governance_fee s.share_price
  let share_reserves ← fpSub (s.share_reserves + xs) gs
  let e1 ← fpSub (s.long_exposure + fpMul (2 * ONE) bond_amount) base_amount
  let exposure := e1 + governance_fee
  let ces ← fpDiv (negExposurePart checkpoint_exposure) s.share_price
  let es ← fpDiv exposure s.share_price
  if es + s.minimum_share_reserves ≤ share_reserves + ces then
    .ok (some (share_reserves + ces - es - s.minimum_share_reserves))
  else
    .ok none

/-- long.rs long_amount_derivative: derivative of get_long_amount; none when
k is below the computed right hand side of the invariant evaluation. -/
def State.long_amount_derivative (s : State) (base_amount : ℕ) :
    Except MathError (Option ℕ) := do
  let share_amount ← fpDiv base_amount s.share_price
  let inner := fpMul s.initial_share_price (s.effective_share_reserves + share_amount)
  let d0 ← fpDiv ONE (s.pow inner s.time_stretch)
  let cdivmu ← fpDiv s.share_price s.initial_share_price
  let rhs := fpMul cdivmu (s.pow inner s.time_stretch)
  if s.k < rhs then
    .ok none
  else do
    let ts1 ← fpSub ONE s.time_stretch
    let texp ← fpDivUp s.time_stretch ts1
    let d1 := fpMul d0 (s.pow (s.k - rhs) texp)
    let inv ← fpDiv ONE s.get_spot_price
    let q ← fpSub inv ONE
    let d2 ← fpSub d1 (fpMul s.curve_fee q)
    .ok (some d2)

/-- long.rs solvency_after_long_derivative: the negated derivative of the
projected solvency, propagating the absence-of-result of
long_amount_derivative. -/
def State.solvency_after_long_derivative (s : State) (base_amount : ℕ) :
    Except MathError (Option ℕ) := do
  match ← s.long_amount_derivative base_amount with
  | none => .ok none
  | some derivative => do
      let omp ← fpSub ONE s.get_spot_price
      let t := fpMul (fpMul s.governance_fee s.curve_fee) omp
      let e ← fpSub (derivative + t) ONE
      let r ← mulDivDown e (2 * ONE) s.share_price
      .ok (some r)

/-- long.rs max_long_estimate: closed-form solvency-based estimate of the
max long for a given conservative price estimate. -/
def State.max_long_estimate (s : State) (estimate_price spot_price : ℕ)
    (checkpoint_exposure : ℤ) : Except MathError ℕ := do
  let sv ← s.get_solvency
  let ces ← fpDiv (negExposurePart checkpoint_exposure) s.share_price
  let estimate ← mulDivDown (sv + ces) s.share_price (2 * ONE)
  let a ← fpDiv ONE estimate_price
  let omp ← fpSub ONE spot_price
  let b := fpMul (fpMul s.governance_fee s.curve_fee) omp
  let c1 ← fpSub (a + b) ONE
  let invp ← fpDiv ONE spot_price
  let q ← fpSub invp ONE
  let denom ← fpSub c1 (fpMul s.curve_fee q)
  fpDiv estimate denom

/-- long.rs max_long_guess: the two-pass analytic initial guess, blending
the spot price toward one by the interpolation weight t. -/
def State.max_long_guess (s : State) (absolute_max_base_amount : ℕ)
    (checkpoint_exposure : ℤ) : Except MathError ℕ := do
  let spot_price := s.get_spot_price
  let guess ← s.max_long_estimate spot_price spot_price checkpoint_exposure
  let ratio ← fpDiv guess absolute_max_base_amount
  let ts1 ← fpSub ONE s.time_stretch
  let texp ← fpDivUp ONE ts1
  let t := fpMul (s.pow ratio texp) (8 * 10 ^ 17)
  let omt ← fpSub ONE t
  let estimate_price := fpMul spot_price omt + fpMul ONE t
  s.max_long_estimate estimate_price spot_price checkpoint_exposure

/-- The boundary block of get_max_long (lines 57 to 62): the base amount and
the net bond amount (after the curve fee) of the long that drives the spot
price to one. -/
def State.absolute_max (s : State) : Except MathError (ℕ × ℕ) := do
  let (share_amount, bond_amount) := s.get_max_buy
  let base_amount := fpMul s.share_price share_amount
  let fee ← s.long_curve_fee base_amount
  let bond ← fpSub bond_amount fee
  .ok (base_amount, bond)

/-- The bounded Newton iteration of get_max_long (lines 102 to 142), with
the remaining iteration count as fuel.  The two panics are the error
values; budget-hit, derivative-undefined and overshoot terminate early. -/
def State.newton_loop (s : State) (budget : ℕ) (checkpoint_exposure : ℤ)
    (absolute_max_base_amount : ℕ) :
    Nat → ℕ → ℕ → Except MathError ℕ
  | 0, max_base_amount, _ => .ok max_base_amount
  | n + 1, max_base_amount, solvency =>
    if absolute_max_base_amount ≤ max_base_amount then
      .error (.panicked ("Reached absolute max bond amount in `get_max_long`."))
    else if budget ≤ max_base_amount then
      .ok budget
    else do
      match ← s.solvency_after_long_derivative max_base_amount with
      | none => .ok max_base_amount
      | some derivative => do
          let step ← fpDiv solvency derivative
          let possible_max_base_amount := max_base_amount + step
          let y ← s.get_long_amount possible_max_base_amount
          match ← s.solvency_after_long possible_max_base_amount y checkpoint_exposure with
          | some sol =>
              s.newton_loop budget checkpoint_exposure absolute_max_base_amount
                n possible_max_base_amount sol
          | none => .ok max_base_amount

/-- long.rs get_max_long: the boundary shortcut followed by the analytic
initial guess and the bounded Newton iteration (default cap 7). -/
def State.get_max_long (s : State) (budget : ℕ) (checkpoint_exposure : ℤ)
    (maybe_max_iterations : Option Nat) : Except MathError ℕ := do
  let (absolute_max_base_amount, absolute_max_bond_amount) ← s.absolute_max
  match ← s.solvency_after_long absolute_max_base_amount absolute_max_bond_amount
      checkpoint_exposure with
  | some _ => .ok (min absolute_max_base_amount budget)
  | none => do
    let max_base_amount ← s.max_long_guess absolute_max_base_amount checkpoint_exposure
    let y ← s.get_long_amount max_base_amount
    match ← s.solvency_after_long max_base_amount y checkpoint_exposure with
    | none => .error (.panicked ("Initial guess in `get_max_long` is insolvent."))
    | some solvency =>
        s.newton_loop budget checkpoint_exposure absolute_max_base_amount
          (maybe_max_iterations.getD 7) max_base_amount solvency

/-- Validity of a pool-state snapshot: positive share price, a spot price in
(0, 1e18], fee rates at most one, a time stretch below one, and the
zero-for-zero property of the external trade function.  The last item is
modelled from the spec: a constant-invariant trade function produces zero
output for zero input. -/
structure Valid (s : State) : Prop where
  share_price_pos : 0 < s.share_price
  spot_pos : 0 < s.get_spot_price
  spot_le_one : s.get_spot_price ≤ ONE
  curve_fee_le : s.curve_fee ≤ ONE
  governance_fee_le : s.governance_fee ≤ ONE
  time_stretch_lt : s.time_stretch < ONE
  out_zero : s.get_out_for_in 0 = 0

/-- The constant curve-fee rate factor curve_fee * (1e18 / spot_price - 1e18)
of long_curve_fee, as a total value (the subtraction cannot underflow on a
valid snapshot, where the spot price is at most one). -/
def curve_rate_n (s : State) : ℕ :=
  fpMul s.curve_fee (ONE * ONE / s.get_spot_price - ONE)

/-- The governance fee of a long, as a total value (equals
long_governance_fee on every valid snapshot). -/
def governance_fee_n (s : State) (x : ℕ) : ℕ :=
  fpMul (fpMul s.governance_fee s.get_spot_price) (fpMul (curve_rate_n s) x)

/-- Modelled from the spec: the current solvency, share reserves minus long
exposure over share price minus minimum share reserves, as a signed value. -/
def spec_current_solvency (s : State) : ℤ :=
  (s.share_reserves : ℤ) - ((s.long_exposure * ONE / s.share_price : ℕ) : ℤ)
    - ((s.minimum_share_reserves : ℕ) : ℤ)

/-- Modelled from the spec: the projected post-trade solvency of
solvency_after_long as a signed value - projected share reserves, plus the
netted negative checkpoint exposure over the share price, minus the
projected (signed) exposure over the share price, minus the minimum share
reserves. -/
def spec_projected_solvency (s : State) (x y : ℕ) (ce : ℤ) : ℤ :=
  ((s.share_reserves : ℤ) + ((x * ONE / s.share_price : ℕ) : ℤ))
    - ((governance_fee_n s x * ONE / s.share_price : ℕ) : ℤ)
    + ((negExposurePart ce * ONE / s.share_price : ℕ) : ℤ)
    - (((s.long_exposure : ℤ) + 2 * (y : ℤ) - (x : ℤ) + ((governance_fee_n s x : ℕ) : ℤ))
        * ((ONE : ℕ) : ℤ)).fdiv ((s.share_price : ℕ) : ℤ)
    - ((s.minimum_share_reserves : ℕ) : ℤ)

/-- Modelled from the spec and the doc comment of long_amount_derivative
(long.rs lines 336 to 343): the quantity under the root of the invariant
evaluation, k minus (c / mu) times (mu * (z_effective + x / c)) raised to
the power 1 - t_s, as a signed value. -/
def spec_root_quantity (s : State) (x : ℕ) : ℤ :=
  ((s.k : ℕ) : ℤ)
    - ((fpMul (s.share_price * ONE / s.initial_share_price)
        (s.pow (fpMul s.initial_share_price
          (s.effective_share_reserves + x * ONE / s.share_price))
          (ONE - s.time_stretch)) : ℕ) : ℤ)

/-- An amount v is feasible for the solver when get_long_amount succeeds on
it and solvency_after_long at (v, get_long_amount v) is a present result. -/
def is_feasible (s : State) (ce : ℤ) (v : ℕ) : Bool :=
  match s.get_long_amount v with
  | .ok y =>
      match s.solvency_after_long v y ce with
      | .ok (some _) => true
      | _ => false
  | .error _ => false

/-- A concrete valid snapshot: share reserves 10, zero exposure, share price
one, minimum share reserves one, spot price one half, zero fees, identity
trade function.  Its boundary trade is infeasible, so get_max_long takes
the Newton path with initial guess 4.5e18. -/
def poolA : State where
  share_reserves := 10 * ONE
  bond_reserves := 11 * ONE
  longs_outstanding := 0
  long_exposure := 0
  share_price := ONE
  initial_share_price := ONE
  minimum_share_reserves := ONE
  time_stretch := 5 * 10 ^ 17
  curve_fee := 0
  governance_fee := 0
  get_out_for_in := fun x => x
  get_max_buy := (10 * ONE, 15 * ONE)
  get_spot_price := 5 * 10 ^ 17
  k := ONE
  effective_share_reserves := ONE
  pow := fun _ _ => 0

/-- poolA with a feasible boundary trade: the boundary shortcut fires. -/
def poolBoundaryOk : State := { poolA with get_max_buy := (ONE, ONE) }

/-- poolA with a small infeasible boundary trade: the Newton-path initial
guess 4.5e18 exceeds the absolute max base amount 1e18. -/
def poolSmallBoundary : State := { poolA with get_max_buy := (ONE, 6 * ONE) }

/-- poolA with a steep trade function: the Newton-path initial guess is
insolvent, so get_max_long aborts. -/
def poolBigOut : State := { poolA with get_out_for_in := fun x => 20 * x }

/-- poolA made insolvent: the exposure term exceeds the share reserves. -/
def poolInsolvent : State := { poolA with share_reserves := ONE, long_exposure := 5 * ONE }

/-- poolA with time stretch 0.2, effective share reserves 0.25, k = 0.5 and
a pow model carrying the two relevant external pow values
0.25 ^ 0.2 = 0.7578 and 0.25 ^ 0.8 = 0.3298 (to four places). -/
def poolWrongExp : State :=
  { poolA with
    time_stretch := 2 * 10 ^ 17
    effective_share_reserves := 25 * 10 ^ 16
    k := 5 * 10 ^ 17
    pow := fun _ b =>
      if b = 2 * 10 ^ 17 then 7578 * 10 ^ 14
      else if b = 8 * 10 ^ 17 then 3298 * 10 ^ 14
      else 0 }

/-- poolA with spot price 0.01, a 100 percent curve fee, and a monotone
trade function whose three plateau values lie exactly on the YieldSpace
curve y - (k - sqrt(z + x / c)) ^ 2 with mu = c = 1, z = 1, y = 10000,
k = 101 (so the spot price (z / y) ^ (1 / 2) = 0.01 is consistent): the
output at 0.0201e18 is 1.9999e18 and at 0.0404e18 is 3.9996e18. -/
def poolStepCurve : State :=
  { poolA with
    get_spot_price := 10 ^ 16
    curve_fee := ONE
    get_out_for_in := fun x =>
      if x < 201 * 10 ^ 14 then 0
      else if x < 404 * 10 ^ 14 then 19999 * 10 ^ 14
      else 39996 * 10 ^ 14 }
section Lemmas

lemma ONE_pos : 0 < ONE := by norm_num [ONE]

lemma fdiv_natCast (a b : ℕ) : Int.fdiv (a : ℤ) (b : ℤ) = ((a / b : ℕ) : ℤ) := by
  rw [Int.fdiv_eq_ediv _ (Int.natCast_nonneg b)]
  exact (Int.natCast_div a b).symm

lemma fpMul_two (y : ℕ) : fpMul (2 * ONE) y = 2 * y := by
  unfold fpMul
  rw [show 2 * ONE * y = 2 * y * ONE by ring, Nat.mul_div_cancel _ ONE_pos]

lemma fpMul_zero_right (a : ℕ) : fpMul a 0 = 0 := by simp [fpMul]

lemma fpMul_zero_left (a : ℕ) : fpMul 0 a = 0 := by simp [fpMul]

lemma spot_inv_ge (s : State) (hv : Valid s) : ONE ≤ ONE * ONE / s.get_spot_price := by
  have h1 : ONE * ONE / ONE ≤ ONE * ONE / s.get_spot_price :=
    Nat.div_le_div_left hv.spot_le_one hv.spot_pos
  have h2 : ONE * ONE / ONE = ONE := Nat.mul_div_cancel _ ONE_pos
  rw [h2] at h1
  exact h1

lemma long_curve_fee_ok (s : State) (hv : Valid s) (x : ℕ) :
    s.long_curve_fee x = .ok (fpMul (curve_rate_n s) x) := by
  have hp : s.get_spot_price ≠ 0 := hv.spot_pos.ne'
  have hle := spot_inv_ge s hv
  unfold State.long_curve_fee
  simp [fpDiv, hp, fpSub, hle, curve_rate_n, Bind.bind, Except.bind]

lemma long_governance_fee_ok (s : State) (hv : Valid s) (x : ℕ) :
    s.long_governance_fee x = .ok (governance_fee_n s x) := by
  unfold State.long_governance_fee
  rw [long_curve_fee_ok s hv x]
  simp [governance_fee_n, Bind.bind, Except.bind]

lemma governance_fee_le_base (s : State) (hv : Valid s) (x : ℕ) :
    governance_fee_n s x ≤ x := by
  set p := s.get_spot_price with hp
  set q : ℕ := ONE * ONE / p - ONE with hq
  have hA : fpMul s.governance_fee p ≤ p := by
    unfold fpMul
    calc s.governance_fee * p / ONE ≤ ONE * p / ONE :=
          Nat.div_le_div_right (Nat.mul_le_mul_right _ hv.governance_fee_le)
    _ = p := Nat.mul_div_cancel_left p ONE_pos
  have hR : curve_rate_n s ≤ q := by
    unfold curve_rate_n fpMul
    rw [← hp, ← hq]
    calc s.curve_fee * q / ONE ≤ ONE * q / ONE :=
          Nat.div_le_div_right (Nat.mul_le_mul_right _ hv.curve_fee_le)
    _ = q := Nat.mul_div_cancel_left _ ONE_pos
  have hF : fpMul (curve_rate_n s) x ≤ q * x / ONE := by
    unfold fpMul
    exact Nat.div_le_div_right (Nat.mul_le_mul_right _ hR)
  have hmain : governance_fee_n s x ≤ p * (q * x / ONE) / ONE := by
    unfold governance_fee_n fpMul
    exact Nat.div_le_div_right (Nat.mul_le_mul hA hF)
  have h2 : p * (q * x / ONE) * ONE ≤ p * (q * x) := by
    calc p * (q * x / ONE) * ONE = p * (q * x / ONE * ONE) := by ring
    _ ≤ p * (q * x) := Nat.mul_le_mul_left _ (Nat.div_mul_le_self _ _)
  have h3 : p * (q * x / ONE) ≤ p * (q * x) / ONE := (Nat.le_div_iff_mul_le ONE_pos).mpr h2
  have hpq : p * q ≤ ONE * ONE := by
    have h4 : q ≤ ONE * ONE / p := Nat.sub_le _ _
    calc p * q ≤ p * (ONE * ONE / p) := Nat.mul_le_mul_left _ h4
    _ = ONE * ONE / p * p := by ring
    _ ≤ ONE * ONE := Nat.div_mul_le_self _ _
  have h5 : p * (q * x) / ONE / ONE ≤ x := by
    have h6 : p * (q * x) ≤ ONE * ONE * x := by
      calc p * (q * x) = p * q * x := by ring
      _ ≤ ONE * ONE * x := Nat.mul_le_mul_right _ hpq
    calc p * (q * x) / ONE / ONE = p * (q * x) / (ONE * ONE) := Nat.div_div_eq_div_mul _ _ _
    _ ≤ ONE * ONE * x / (ONE * ONE) := Nat.div_le_div_right h6
    _ = x := Nat.mul_div_cancel_left _ (Nat.mul_pos ONE_pos ONE_pos)
  calc governance_fee_n s x ≤ p * (q * x / ONE) / ONE := hmain
  _ ≤ p * (q * x) / ONE / ONE := Nat.div_le_div_right h3
  _ ≤ x := h5

end Lemmas

lemma get_solvency_eq (s : State) (hv : Valid s) :
    s.get_solvency =
      if s.long_exposure * ONE / s.share_price + s.minimum_share_reserves ≤ s.share_reserves
      then .ok (s.share_reserves - s.long_exposure * ONE / s.share_price - s.minimum_share_reserves)
      else .error .underflow := by
  have hc : s.share_price ≠ 0 := hv.share_price_pos.ne'
  have hdiv : fpDiv s.long_exposure s.share_price
      = .ok (s.long_exposure * ONE / s.share_price) := by simp [fpDiv, hc]
  unfold State.get_solvency
  rw [hdiv]
  simp only [Bind.bind, Except.bind]
  unfold fpSub
  generalize s.long_exposure * ONE / s.share_price = L
  generalize s.share_reserves = SR
  generalize s.minimum_share_reserves = ZM
  by_cases h1 : L ≤ SR
  · rw [if_pos h1]
    dsimp only
    by_cases h2 : ZM ≤ SR - L
    · rw [if_pos h2, if_pos (show L + ZM ≤ SR by omega)]
    · rw [if_neg h2, if_neg (show ¬(L + ZM ≤ SR) by omega)]
  · rw [if_neg h1]
    dsimp only
    rw [if_neg (show ¬(L + ZM ≤ SR) by omega)]

lemma solvency_after_long_eq (s : State) (hv : Valid s) (x y : ℕ) (ce : ℤ)
    (hexp : x ≤ s.long_exposure + 2 * y) :
    s.solvency_after_long x y ce =
      .ok (if 0 ≤ spec_projected_solvency s x y ce
           then some (spec_projected_solvency s x y ce).toNat else none) := by
  have hc : s.share_price ≠ 0 := hv.share_price_pos.ne'
  have hgle := governance_fee_le_base s hv x
  have hgsxs : governance_fee_n s x * ONE / s.share_price ≤ x * ONE / s.share_price :=
    Nat.div_le_div_right (Nat.mul_le_mul_right _ hgle)
  have hP : spec_projected_solvency s x y ce =
      ((s.share_reserves : ℤ) + ((x * ONE / s.share_price : ℕ) : ℤ))
        - ((governance_fee_n s x * ONE / s.share_price : ℕ) : ℤ)
        + ((negExposurePart ce * ONE / s.share_price : ℕ) : ℤ)
        - (((s.long_exposure + 2 * y - x + governance_fee_n s x) * ONE / s.share_price : ℕ) : ℤ)
        - ((s.minimum_share_reserves : ℕ) : ℤ) := by
    unfold spec_projected_solvency
    have hEZ : (s.long_exposure : ℤ) + 2 * (y : ℤ) - (x : ℤ) + ((governance_fee_n s x : ℕ) : ℤ)
        = ((s.long_exposure + 2 * y - x + governance_fee_n s x : ℕ) : ℤ) := by
      rw [Nat.cast_add, Nat.cast_sub hexp]
      push_cast
      ring
    rw [hEZ, ← Nat.cast_mul, fdiv_natCast]
  unfold State.solvency_after_long
  rw [long_governance_fee_ok s hv x]
  simp only [Bind.bind, Except.bind]
  rw [show fpDiv x s.share_price = .ok (x * ONE / s.share_price) from by simp [fpDiv, hc]]
  simp only [Except.bind]
  rw [show fpDiv (governance_fee_n s x) s.share_price
      = .ok (governance_fee_n s x * ONE / s.share_price) from by simp [fpDiv, hc]]
  simp only [Except.bind]
  rw [show fpSub (s.share_reserves + x * ONE / s.share_price)
        (governance_fee_n s x * ONE / s.share_price)
      = .ok (s.share_reserves + x * ONE / s.share_price
          - governance_fee_n s x * ONE / s.share_price) from by
    unfold fpSub
    rw [if_pos (Nat.le_trans hgsxs (Nat.le_add_left _ _))]]
  simp only [Except.bind]
  rw [show fpSub (s.long_exposure + fpMul (2 * ONE) y) x
      = .ok (s.long_exposure + 2 * y - x) from by
    rw [fpMul_two y]; unfold fpSub; rw [if_pos hexp]]
  simp only [Except.bind]
  rw [show fpDiv (negExposurePart ce) s.share_price
      = .ok (negExposurePart ce * ONE / s.share_price) from by simp [fpDiv, hc]]
  simp only [Except.bind]
  rw [show fpDiv (s.long_exposure + 2 * y - x + governance_fee_n s x) s.share_price
      = .ok ((s.long_exposure + 2 * y - x + governance_fee_n s x) * ONE / s.share_price)
      from by simp [fpDiv, hc]]
  simp only [Except.bind]
  rw [hP]
  have key : ∀ SR ZM XS GS CS ES : ℕ, GS ≤ XS →
      (if ES + ZM ≤ SR + XS - GS + CS
       then (Except.ok (some (SR + XS - GS + CS - ES - ZM)) : Except MathError (Option ℕ))
       else .ok none)
      = .ok (if 0 ≤ (SR : ℤ) + (XS : ℤ) - (GS : ℤ) + (CS : ℤ) - (ES : ℤ) - (ZM : ℤ)
             then some ((SR : ℤ) + (XS : ℤ) - (GS : ℤ) + (CS : ℤ) - (ES : ℤ) - (ZM : ℤ)).toNat
             else none) := by
    intro SR ZM XS GS CS ES hle
    by_cases hcond : ES + ZM ≤ SR + XS - GS + CS
    · rw [if_pos hcond, if_pos (by omega)]
      have hval : SR + XS - GS + CS - ES - ZM
          = ((SR : ℤ) + (XS : ℤ) - (GS : ℤ) + (CS : ℤ) - (ES : ℤ) - (ZM : ℤ)).toNat := by omega
      rw [hval]
    · rw [if_neg hcond, if_neg (by omega)]
  exact key s.share_reserves s.minimum_share_reserves (x * ONE / s.share_price)
    (governance_fee_n s x * ONE / s.share_price)
    (negExposurePart ce * ONE / s.share_price)
    ((s.long_exposure + 2 * y - x + governance_fee_n s x) * ONE / s.share_price) hgsxs

lemma valid_poolA : Valid poolA := by
  refine ⟨?_, ?_, ?_, ?_, ?_, ?_, ?_⟩ <;> norm_num [poolA, ONE]

lemma valid_poolBoundaryOk : Valid poolBoundaryOk := by
  refine ⟨?_, ?_, ?_, ?_, ?_, ?_, ?_⟩ <;> norm_num [poolBoundaryOk, poolA, ONE]

lemma valid_poolSmallBoundary : Valid poolSmallBoundary := by
  refine ⟨?_, ?_, ?_, ?_, ?_, ?_, ?_⟩ <;> norm_num [poolSmallBoundary, poolA, ONE]

lemma valid_poolBigOut : Valid poolBigOut := by
  refine ⟨?_, ?_, ?_, ?_, ?_, ?_, ?_⟩ <;> norm_num [poolBigOut, poolA, ONE]

lemma valid_poolInsolvent : Valid poolInsolvent := by
  refine ⟨?_, ?_, ?_, ?_, ?_, ?_, ?_⟩ <;> norm_num [poolInsolvent, poolA, ONE]

lemma valid_poolWrongExp : Valid poolWrongExp := by
  refine ⟨?_, ?_, ?_, ?_, ?_, ?_, ?_⟩ <;> norm_num [poolWrongExp, poolA, ONE]

lemma valid_poolStepCurve : Valid poolStepCurve := by
  refine ⟨?_, ?_, ?_, ?_, ?_, ?_, ?_⟩ <;> norm_num [poolStepCurve, poolA, ONE]

lemma newton_loop_ok (s : State) (budget : ℕ) (ce : ℤ) (bb : ℕ) :
    ∀ n mb sol v : ℕ, is_feasible s ce mb = true →
      s.newton_loop budget ce bb n mb sol = .ok v →
      v < bb ∨ is_feasible s ce v = true := by
  intro n
  induction n with
  | zero =>
    intro mb sol v hf h
    simp only [State.newton_loop, Except.ok.injEq] at h
    rw [← h]
    exact Or.inr hf
  | succ n ih =>
    intro mb sol v hf h
    rw [State.newton_loop] at h
    by_cases h1 : bb ≤ mb
    · rw [if_pos h1] at h
      simp at h
    · rw [if_neg h1] at h
      by_cases h2 : budget ≤ mb
      · rw [if_pos h2] at h
        simp only [Except.ok.injEq] at h
        left
        omega
      · rw [if_neg h2] at h
        simp only [Bind.bind, Except.bind] at h
        cases hd : s.solvency_after_long_derivative mb with
        | error e => rw [hd] at h; simp at h
        | ok od =>
          rw [hd] at h
          simp only at h
          cases od with
          | none =>
            simp only [Except.ok.injEq] at h
            left
            omega
          | some d =>
            simp only [Bind.bind, Except.bind] at h
            cases hstep : fpDiv sol d with
            | error e => rw [hstep] at h; simp at h
            | ok st =>
              rw [hstep] at h
              simp only at h
              cases hy : s.get_long_amount (mb + st) with
              | error e => rw [hy] at h; simp at h
              | ok y =>
                rw [hy] at h
                simp only at h
                cases hs2 : s.solvency_after_long (mb + st) y ce with
                | error e => rw [hs2] at h; simp at h
                | ok r =>
                  rw [hs2] at h
                  simp only at h
                  cases r with
                  | some sol2 =>
                    refine ih (mb + st) sol2 v ?_ h
                    unfold is_feasible
                    simp only [hy, hs2]
                  | none =>
                    simp only [Except.ok.injEq] at h
                    left
                    omega

lemma derivative_none_propagates (s : State) (x : ℕ)
    (h : s.long_amount_derivative x = .ok none) :
    s.solvency_after_long_derivative x = .ok none := by
  unfold State.solvency_after_long_derivative
  rw [h]
  simp [Bind.bind, Except.bind]

/-- C1: the claim states that every value returned by get_max_long is at
most the budget.  The code violates this: the budget clamp runs only at the
top of a loop iteration, so with an iteration cap of zero (and, in general,
for an update accepted in the final iteration) the returned value is never
clamped.  On the valid snapshot poolA with budget 0 and cap 0, get_max_long
returns the initial guess 4.5e18, exceeding the budget. -/
theorem c1_budget_exceeded :
    Valid poolA
      ∧ poolA.get_max_long 0 0 (some 0) = .ok 4500000000000000000
      ∧ (0 : ℕ) < 4500000000000000000 :=
  ⟨valid_poolA, by rfl, by norm_num⟩

/-- C2: with budget 0 and the default iteration cap, whenever get_max_long
returns a value, that value is exactly 0 (either the boundary shortcut
returns min(boundary, 0) = 0, or the first loop iteration hits the budget
check). -/
theorem c2_zero_budget (s : State) (hv : Valid s) (ce : ℤ) (v : ℕ)
    (h : s.get_max_long 0 ce Option.none = .ok v) : v = 0 := by
  unfold State.get_max_long at h
  cases habs : s.absolute_max with
  | error e => rw [habs] at h; simp [Bind.bind, Except.bind] at h
  | ok pair =>
    obtain ⟨bb, bd⟩ := pair
    rw [habs] at h
    simp only [Bind.bind, Except.bind] at h
    cases hsol : s.solvency_after_long bb bd ce with
    | error e => rw [hsol] at h; simp at h
    | ok r =>
      rw [hsol] at h
      simp only at h
      cases r with
      | some sv =>
        simp only [Except.ok.injEq] at h
        omega
      | none =>
        simp only [Bind.bind, Except.bind] at h
        cases hg : s.max_long_guess bb ce with
        | error e => rw [hg] at h; simp at h
        | ok g =>
          rw [hg] at h
          simp only at h
          cases hy : s.get_long_amount g with
          | error e => rw [hy] at h; simp at h
          | ok y =>
            rw [hy] at h
            simp only at h
            cases hs2 : s.solvency_after_long g y ce with
            | error e => rw [hs2] at h; simp at h
            | ok r2 =>
              rw [hs2] at h
              simp only at h
              cases r2 with
              | none => simp at h
              | some sol =>
                dsimp only [Option.getD] at h
                rw [show (7 : ℕ) = Nat.succ 6 from rfl] at h
                rw [State.newton_loop.eq_2] at h
                by_cases hb : bb ≤ g
                · rw [if_pos hb] at h; simp at h
                · rw [if_neg hb] at h
                  rw [if_pos (Nat.zero_le g)] at h
                  simp only [Except.ok.injEq] at h
                  omega

/-- Witness for C2 on the concrete snapshot poolBoundaryOk, whose boundary
trade is feasible: get_max_long with budget 0 returns 0. -/
theorem c2_zero_budget_witness :
    poolBoundaryOk.get_max_long 0 0 Option.none = .ok 0 ∧ (0 : ℕ) = 0 :=
  ⟨by rfl, c2_zero_budget poolBoundaryOk valid_poolBoundaryOk 0 0 (by rfl)⟩

/-- C3 counterexample: the claim states that every value returned from the
Newton path is strictly below the absolute boundary base amount.  With an
iteration cap of zero the initial guess is returned unchecked: on
poolSmallBoundary the boundary is 1e18, its solvency check fails, and
get_max_long returns the guess 4.5e18, which is not below the boundary. -/
theorem c3_exceeds_boundary :
    Valid poolSmallBoundary
      ∧ poolSmallBoundary.absolute_max = .ok (ONE, 6 * ONE)
      ∧ poolSmallBoundary.solvency_after_long ONE (6 * ONE) 0 = .ok none
      ∧ poolSmallBoundary.get_max_long (100 * ONE) 0 (some 0) = .ok 4500000000000000000
      ∧ ¬(4500000000000000000 < ONE) :=
  ⟨valid_poolSmallBoundary, by rfl, by rfl, by rfl, by norm_num [ONE]⟩

/-- C3 amended: every value returned by the Newton path is strictly below
the absolute boundary base amount, or is solvency-feasible (it passed the
solvency_after_long check when accepted): returns through the budget check
are below the boundary, and the value returned after the loop is the last
accepted (solvency-checked) guess. -/
theorem c3_boundary_or_feasible (s : State) (hv : Valid s) (budget : ℕ) (ce : ℤ)
    (cap : Option ℕ) (bb bd v : ℕ)
    (habs : s.absolute_max = .ok (bb, bd))
    (hnone : s.solvency_after_long bb bd ce = .ok none)
    (hres : s.get_max_long budget ce cap = .ok v) :
    v < bb ∨ is_feasible s ce v = true := by
  unfold State.get_max_long at hres
  rw [habs] at hres
  simp only [Bind.bind, Except.bind] at hres
  rw [hnone] at hres
  simp only at hres
  cases hg : s.max_long_guess bb ce with
  | error e => rw [hg] at hres; simp at hres
  | ok g =>
    rw [hg] at hres
    simp only at hres
    cases hy : s.get_long_amount g with
    | error e => rw [hy] at hres; simp at hres
    | ok y =>
      rw [hy] at hres
      simp only at hres
      cases hs2 : s.solvency_after_long g y ce with
      | error e => rw [hs2] at hres; simp at hres
      | ok r =>
        rw [hs2] at hres
        simp only at hres
        cases r with
        | none => simp at hres
        | some sol =>
          refine newton_loop_ok s budget ce bb (cap.getD 7) g sol v ?_ hres
          unfold is_feasible
          simp only [hy, hs2]

/-- Witness for the amended C3 at the concrete inputs of the counterexample
snapshot (the returned guess is solvency-feasible). -/
theorem c3_boundary_or_feasible_witness :
    4500000000000000000 < ONE ∨ is_feasible poolSmallBoundary 0 4500000000000000000 = true :=
  c3_boundary_or_feasible poolSmallBoundary valid_poolSmallBoundary (100 * ONE) 0 (some 0)
    ONE (6 * ONE) 4500000000000000000 (by rfl) (by rfl) (by rfl)

/-- C4: when solvency_after_long at the absolute boundary returns a present
result, get_max_long returns min(boundary base amount, budget) for every
iteration cap (so no Newton iteration is performed: the result does not
depend on the cap). -/
theorem c4_boundary_shortcut (s : State) (hv : Valid s) (budget : ℕ) (ce : ℤ)
    (cap : Option ℕ) (bb bd sv : ℕ)
    (habs : s.absolute_max = .ok (bb, bd))
    (hsol : s.solvency_after_long bb bd ce = .ok (some sv)) :
    s.get_max_long budget ce cap = .ok (min bb budget) := by
  unfold State.get_max_long
  rw [habs]
  simp only [Bind.bind, Except.bind]
  rw [hsol]

/-- Witness for C4 on the concrete snapshot poolBoundaryOk with a budget
below the boundary, and iteration cap zero (the cap is irrelevant on the
boundary path). -/
theorem c4_boundary_shortcut_witness :
    poolBoundaryOk.get_max_long (3 * 10 ^ 17) 0 (some 0) = .ok (min ONE (3 * 10 ^ 17)) :=
  c4_boundary_shortcut poolBoundaryOk valid_poolBoundaryOk (3 * 10 ^ 17) 0 (some 0)
    ONE ONE (9 * ONE) (by rfl) (by rfl)

/-- C5 counterexample: the claim states that solvency_after_long returns a
present result exactly when the projected solvency is non-negative and an
absence-of-result when it is negative.  On the valid snapshot poolA with
base amount 30e18 and bond amount 0, the projected solvency is positive
(69e18), yet the unsigned exposure update long_exposure + 2 * bond_amount -
base_amount underflows and the function aborts instead of returning a
present result. -/
theorem c5_exposure_underflow :
    Valid poolA
      ∧ 0 ≤ spec_projected_solvency poolA (30 * ONE) 0 0
      ∧ poolA.solvency_after_long (30 * ONE) 0 0 = .error .underflow :=
  ⟨valid_poolA, by decide, by rfl⟩

/-- C5 amended: provided the exposure update does not underflow
(base_amount at most long_exposure + 2 * bond_amount), solvency_after_long
returns a present result equal to the projected post-trade solvency exactly
when that projection is non-negative, and an absence-of-result when it is
negative. -/
theorem c5_solvency_signal (s : State) (hv : Valid s) (x y : ℕ) (ce : ℤ)
    (hexp : x ≤ s.long_exposure + 2 * y) :
    (0 ≤ spec_projected_solvency s x y ce
        ∧ s.solvency_after_long x y ce
          = .ok (some (spec_projected_solvency s x y ce).toNat))
    ∨ (spec_projected_solvency s x y ce < 0
        ∧ s.solvency_after_long x y ce = .ok none) := by
  have h := solvency_after_long_eq s hv x y ce hexp
  by_cases h0 : 0 ≤ spec_projected_solvency s x y ce
  · exact Or.inl ⟨h0, by rw [h, if_pos h0]⟩
  · exact Or.inr ⟨by omega, by rw [h, if_neg h0]⟩

/-- Witness for the amended C5 on poolA with base amount 1e18 and bond
amount 1e18. -/
theorem c5_solvency_signal_witness :
    (0 ≤ spec_projected_solvency poolA ONE ONE 0
        ∧ poolA.solvency_after_long ONE ONE 0
          = .ok (some (spec_projected_solvency poolA ONE ONE 0).toNat))
    ∨ (spec_projected_solvency poolA ONE ONE 0 < 0
        ∧ poolA.solvency_after_long ONE ONE 0 = .ok none) :=
  c5_solvency_signal poolA valid_poolA ONE ONE 0 (by norm_num [poolA, ONE])

/-- C6: the claim states that long_amount_derivative returns an
absence-of-result exactly when k minus the (c / mu) * (mu * (z_effective +
x / c)) ^ (1 - t_s) term is non-positive.  The code instead compares k with
(c / mu) * inner ^ t_s, contradicting its own doc comment (long.rs lines
336 to 343), and the comparison is strict.  On poolWrongExp (inner = 0.25,
t_s = 0.2, k = 0.5, with the external pow carrying 0.25 ^ 0.2 = 0.7578 and
0.25 ^ 0.8 = 0.3298), the function returns the absence-of-result although
the documented quantity under the root, 0.5 - 0.3298 = 0.1702, is
positive. -/
theorem c6_wrong_exponent_boundary :
    Valid poolWrongExp
      ∧ poolWrongExp.long_amount_derivative 0 = .ok none
      ∧ 0 < spec_root_quantity poolWrongExp 0 :=
  ⟨valid_poolWrongExp, by rfl, by decide⟩

/-- C7 counterexample: the claim states that every computed quantity of
get_solvency, solvency_after_long and solvency_after_long_derivative that
would be negative is reported as an explicit absence-of-result and that no
operation fails.  On the valid (but insolvent) snapshot poolInsolvent the
current solvency is negative and get_solvency aborts with an unsigned
underflow instead of reporting an absence-of-result. -/
theorem c7_get_solvency_fails :
    Valid poolInsolvent
      ∧ poolInsolvent.get_solvency = .error .underflow
      ∧ spec_current_solvency poolInsolvent < 0 :=
  ⟨valid_poolInsolvent, by rfl, by decide⟩

/-- C7 amended: get_solvency returns the current solvency when it is
non-negative but fails (underflow) rather than returning an
absence-of-result when it is negative; solvency_after_long_derivative
propagates the absence-of-result of long_amount_derivative; and
solvency_after_long reports a negative projected solvency as an
absence-of-result provided its exposure update is representable. -/
theorem c7_negative_signalling (s : State) (hv : Valid s) (x y : ℕ) (ce : ℤ)
    (hexp : x ≤ s.long_exposure + 2 * y) :
    (0 ≤ spec_current_solvency s
        → s.get_solvency = .ok (spec_current_solvency s).toNat)
    ∧ (spec_current_solvency s < 0 → s.get_solvency = .error .underflow)
    ∧ (s.long_amount_derivative x = .ok none
        → s.solvency_after_long_derivative x = .ok none)
    ∧ (spec_projected_solvency s x y ce < 0
        → s.solvency_after_long x y ce = .ok none) := by
  refine ⟨?_, ?_, derivative_none_propagates s x, ?_⟩
  · intro h0
    rw [get_solvency_eq s hv]
    unfold spec_current_solvency at h0 ⊢
    rw [if_pos (show s.long_exposure * ONE / s.share_price + s.minimum_share_reserves
        ≤ s.share_reserves by omega)]
    congr 1
    omega
  · intro h0
    rw [get_solvency_eq s hv]
    unfold spec_current_solvency at h0
    rw [if_neg (show ¬(s.long_exposure * ONE / s.share_price + s.minimum_share_reserves
        ≤ s.share_reserves) by omega)]
  · intro hneg
    rw [solvency_after_long_eq s hv x y ce hexp, if_neg (by omega)]

/-- Witness for the amended C7 on poolA with base amount 1e18 and bond
amount 1e18. -/
theorem c7_negative_signalling_witness :
    (0 ≤ spec_current_solvency poolA
        → poolA.get_solvency = .ok (spec_current_solvency poolA).toNat)
    ∧ (spec_current_solvency poolA < 0 → poolA.get_solvency = .error .underflow)
    ∧ (poolA.long_amount_derivative ONE = .ok none
        → poolA.solvency_after_long_derivative ONE = .ok none)
    ∧ (spec_projected_solvency poolA ONE ONE 0 < 0
        → poolA.solvency_after_long ONE ONE 0 = .ok none) :=
  c7_negative_signalling poolA valid_poolA ONE ONE 0 (by norm_num [poolA, ONE])

/-- C8: when the boundary check fails and solvency_after_long at the
initial guess returns an absence-of-result, get_max_long aborts with the
insolvent-initial-guess panic rather than returning a value. -/
theorem c8_initial_guess_abort (s : State) (hv : Valid s) (budget : ℕ) (ce : ℤ)
    (cap : Option ℕ) (bb bd g y : ℕ)
    (habs : s.absolute_max = .ok (bb, bd))
    (hb : s.solvency_after_long bb bd ce = .ok none)
    (hg : s.max_long_guess bb ce = .ok g)
    (hy : s.get_long_amount g = .ok y)
    (hs : s.solvency_after_long g y ce = .ok none) :
    s.get_max_long budget ce cap
      = .error (.panicked ("Initial guess in `get_max_long` is insolvent.")) := by
  unfold State.get_max_long
  rw [habs]
  simp only [Bind.bind, Except.bind]
  rw [hb]
  simp only
  rw [hg]
  simp only
  rw [hy]
  simp only
  rw [hs]

/-- Witness for C8 on the concrete snapshot poolBigOut, whose steep trade
function makes the initial guess insolvent. -/
theorem c8_initial_guess_abort_witness :
    poolBigOut.get_max_long 0 0 Option.none
      = .error (.panicked ("Initial guess in `get_max_long` is insolvent.")) :=
  c8_initial_guess_abort poolBigOut valid_poolBigOut 0 0 Option.none
    (10 * ONE) (15 * ONE) 4500000000000000000 (90 * ONE)
    (by rfl) (by rfl) (by rfl) (by rfl) (by rfl)

/-- C9: on every valid snapshot, get_long_amount, long_curve_fee and
long_governance_fee are exactly zero at base amount zero. -/
theorem c9_zero_at_zero (s : State) (hv : Valid s) :
    s.get_long_amount 0 = .ok 0 ∧ s.long_curve_fee 0 = .ok 0
      ∧ s.long_governance_fee 0 = .ok 0 := by
  have hc : s.share_price ≠ 0 := hv.share_price_pos.ne'
  have hfee : s.long_curve_fee 0 = .ok 0 := by
    rw [long_curve_fee_ok s hv 0]
    simp [fpMul]
  have hgov : s.long_governance_fee 0 = .ok 0 := by
    unfold State.long_governance_fee
    rw [hfee]
    simp [Bind.bind, Except.bind, fpMul]
  refine ⟨?_, hfee, hgov⟩
  unfold State.get_long_amount
  rw [show fpDiv 0 s.share_price = .ok 0 from by simp [fpDiv, hc]]
  simp only [Bind.bind, Except.bind]
  rw [hv.out_zero, hfee]
  simp [fpSub]

/-- Witness for C9 on the concrete snapshot poolA. -/
theorem c9_zero_at_zero_witness :
    poolA.get_long_amount 0 = .ok 0 ∧ poolA.long_curve_fee 0 = .ok 0
      ∧ poolA.long_governance_fee 0 = .ok 0 :=
  c9_zero_at_zero poolA valid_poolA

/-- C10 counterexample: the claim states that get_long_amount is monotone
non-decreasing in the base amount for fixed reserves.  On poolStepCurve
(spot price 0.01, 100 percent curve fee, a monotone trade function whose
sampled values lie exactly on a YieldSpace curve), get_long_amount drops
from 1e16 at base 0.0201e18 to 0 at base 0.0404e18: near the curve
boundary the constant fee rate (1 / p - 1 = 99) exceeds the marginal curve
output, so the net amount decreases. -/
theorem c10_nonmonotone :
    Valid poolStepCurve
      ∧ (201 * 10 ^ 14 : ℕ) ≤ 404 * 10 ^ 14
      ∧ poolStepCurve.get_long_amount (201 * 10 ^ 14) = .ok (10 ^ 16)
      ∧ poolStepCurve.get_long_amount (404 * 10 ^ 14) = .ok 0
      ∧ ¬((10 ^ 16 : ℕ) ≤ 0) :=
  ⟨valid_poolStepCurve, by norm_num, by rfl, by rfl, by norm_num⟩

/-- C10 amended: get_long_amount is monotone from x1 to x2 (both values
defined) provided the external curve output grows over [x1 / c, x2 / c] by
at least the curve-fee rate times the base increment plus one wei of
rounding; without such a slope bound, which the collaborator contract does
not supply, monotonicity can fail. -/
theorem c10_monotone_slope (s : State) (hv : Valid s) (x1 x2 v1 v2 : ℕ) (h12 : x1 ≤ x2)
    (h1 : s.get_long_amount x1 = .ok v1) (h2 : s.get_long_amount x2 = .ok v2)
    (hslope : s.get_out_for_in (x1 * ONE / s.share_price)
        + curve_rate_n s * (x2 - x1) / ONE + 1
        ≤ s.get_out_for_in (x2 * ONE / s.share_price)) :
    v1 ≤ v2 := by
  have hc : s.share_price ≠ 0 := hv.share_price_pos.ne'
  unfold State.get_long_amount at h1 h2
  rw [show fpDiv x1 s.share_price = .ok (x1 * ONE / s.share_price) from by
    simp [fpDiv, hc]] at h1
  rw [show fpDiv x2 s.share_price = .ok (x2 * ONE / s.share_price) from by
    simp [fpDiv, hc]] at h2
  simp only [Bind.bind, Except.bind] at h1 h2
  rw [long_curve_fee_ok s hv x1] at h1
  rw [long_curve_fee_ok s hv x2] at h2
  simp only at h1 h2
  unfold fpSub at h1 h2
  by_cases hle1 : fpMul (curve_rate_n s) x1 ≤ s.get_out_for_in (x1 * ONE / s.share_price)
  · rw [if_pos hle1] at h1
    by_cases hle2 : fpMul (curve_rate_n s) x2 ≤ s.get_out_for_in (x2 * ONE / s.share_price)
    · rw [if_pos hle2] at h2
      simp only [Except.ok.injEq] at h1 h2
      have hfees : fpMul (curve_rate_n s) x2
          ≤ fpMul (curve_rate_n s) x1 + curve_rate_n s * (x2 - x1) / ONE + 1 := by
        unfold fpMul
        have hsplit : curve_rate_n s * x2
            = curve_rate_n s * x1 + curve_rate_n s * (x2 - x1) := by
          rw [← Nat.mul_add]
          congr 1
          omega
        rw [hsplit, Nat.add_div ONE_pos]
        split_ifs <;> omega
      omega
    · rw [if_neg hle2] at h2
      simp at h2
  · rw [if_neg hle1] at h1
    simp at h1

/-- Witness for the amended C10 on poolA (identity trade function, zero
curve fee) from 0 to 1e18. -/
theorem c10_monotone_slope_witness :
    poolA.get_long_amount 0 = .ok 0 ∧ poolA.get_long_amount ONE = .ok ONE
      ∧ (0 : ℕ) ≤ ONE :=
  ⟨by rfl, by rfl,
    c10_monotone_slope poolA valid_poolA 0 ONE 0 ONE (by norm_num)
      (by rfl) (by rfl) (by decide)⟩
